import Mathlib

set_option autoImplicit false

/-!
Verification development for the crypto-marketcap-rank collection and build
pipeline.  The Lean definitions below are shallow embeddings of the Python
source under src/: the rate limiter (src/utils/rate_limiter.py), the
checkpoint manager (src/utils/checkpoint_manager.py), the CoinGecko collector
(src/collectors/coingecko_collector.py), the schema validator
(src/validators/schema_validator.py) and the format builders
(src/builders/*.py).  Machine floats are modelled as rationals, wall-clock
timestamps as rationals (epoch seconds), JSON documents as an inductive
`Json` type, and the filesystem as a finite map from path keys to JSON
documents.
-/

namespace CryptoRank

/-- A JSON document as produced by the Python `json` module.  Python keeps
`int` and `float` apart after parsing, so the model does too; floats are
represented by rationals.  Arrays and objects are encoded as internal cons
chains (`arrNil`/`arrCons`, `objNil`/`objCons`) rather than nested `List`s
so that decidable equality can be derived; an object chain is an
association list whose keys are assumed unique (Python dicts). -/
inductive Json where
  | null
  | bool (b : Bool)
  | int (n : Int)
  | float (q : Rat)
  | str (s : String)
  | arrNil
  | arrCons (head tail : Json)
  | objNil
  | objCons (key : String) (value tail : Json)
deriving DecidableEq

/-- Build an object chain from an association list. -/
def Json.objOf : List (String × Json) → Json
  | [] => .objNil
  | (k, v) :: rest => .objCons k v (Json.objOf rest)

/-- Build an array chain from a list. -/
def Json.arrOf : List Json → Json
  | [] => .arrNil
  | j :: rest => .arrCons j (Json.arrOf rest)

/-- Python truthiness of a JSON value (`if coin_id:`): `None`, `False`, `0`,
`0.0`, the empty string, the empty list and the empty dict are falsy. -/
def pyTruthy : Json → Bool
  | .null => false
  | .bool b => b
  | .int n => n != 0
  | .float q => q != 0
  | .str s => s != ""
  | .arrNil => false
  | .arrCons _ _ => true
  | .objNil => false
  | .objCons _ _ _ => true

/-- Whether a JSON value is a dict (object). -/
def Json.isObjNode : Json → Bool
  | .objNil => true
  | .objCons _ _ _ => true
  | _ => false

/-- Dictionary lookup, `d.get(k)`: walk the object chain, `none` when the
key is absent or the value is not a dict. -/
def jsonLookup : Json → String → Option Json
  | .objCons k v t, key => if k = key then some v else jsonLookup t key
  | _, _ => none

/-- Model of `coin.get(k)` on a raw record. -/
def jsonGet (j : Json) (k : String) : Option Json :=
  jsonLookup j k

/-- Decidable equality of fallible results, used to settle concrete runs. -/
instance {ε α : Type} [DecidableEq ε] [DecidableEq α] :
    DecidableEq (Except ε α) := fun a b =>
  match a, b with
  | .ok x, .ok y =>
      if h : x = y then .isTrue (congrArg Except.ok h)
      else .isFalse (fun hh => h (Except.ok.inj hh))
  | .error x, .error y =>
      if h : x = y then .isTrue (congrArg Except.error h)
      else .isFalse (fun hh => h (Except.error.inj hh))
  | .ok _, .error _ => .isFalse (fun hh => Except.noConfusion hh)
  | .error _, .ok _ => .isFalse (fun hh => Except.noConfusion hh)

/-! ## RateLimiter (src/utils/rate_limiter.py) -/

/-- Model of `RateLimitConfig` (rate_limiter.py lines 23-28).  The warning threshold
only drives a log line and is irrelevant to the quota state. -/
structure RateLimitConfig where
  calls_per_minute : Nat
  calls_per_month : Nat
deriving DecidableEq

/-- The month/year pair that `datetime.now()` exposes to
`reset_if_new_month`. -/
structure YearMonth where
  year : Int
  month : Nat
deriving DecidableEq

/-- Model of `RateLimitMetrics` (rate_limiter.py lines 31-36): the sliding window of
request timestamps, the monthly counter, and the month the counter belongs
to. -/
structure RateLimitMetrics where
  minute_calls : List Rat
  monthly_calls : Nat
  month_start : Option YearMonth
deriving DecidableEq

/-- The metrics of a freshly constructed `RateLimiter`. -/
def initMetrics : RateLimitMetrics :=
  { minute_calls := [], monthly_calls := 0, month_start := none }

/-- Model of `RateLimitMetrics.reset_if_new_month` (rate_limiter.py lines 38-47):
record the month on first use; zero the monthly counter when the stored
month/year differs from the current one. -/
def resetIfNewMonth (m : RateLimitMetrics) (nowYM : YearMonth) : RateLimitMetrics :=
  match m.month_start with
  | none => { m with month_start := some nowYM }
  | some ym =>
      if ym = nowYM then m
      else { m with monthly_calls := 0, month_start := some nowYM }

/-- Model of `RateLimiter._cleanup_old_calls` (rate_limiter.py lines 133-136): keep
only timestamps strictly newer than `now - 60`. -/
def cleanupOldCalls (m : RateLimitMetrics) (now : Rat) : RateLimitMetrics :=
  { m with minute_calls := m.minute_calls.filter (fun ts => decide (now - 60 < ts)) }

/-- The exceptions `acquire` can raise.  `indexCrash` models the Python
`IndexError` on `minute_calls[0]` that is reachable only when the window is
simultaneously empty and at capacity (`calls_per_minute = 0`). -/
inductive RateLimitExceeded where
  | monthly (used limit : Nat)
  | minute (count limit : Nat)
  | indexCrash
deriving DecidableEq

/-- Outcome of one `acquire` call: the metrics after the call, the wall
clock after any sleep the call performed, and the raised exception when the
call failed. -/
structure AcquireResult where
  metrics : RateLimitMetrics
  now : Rat
  err : Option RateLimitExceeded
deriving DecidableEq

/-- Model of `RateLimiter.acquire` (rate_limiter.py lines 81-124).  The wall clock is
passed in (`now` for `time.time()`, `nowYM` for `datetime.now()`); a
blocking sleep advances it by exactly the requested duration
(`wait_time + 0.1`).  Mutations that precede a raise (the month reset and
the cleanup) are kept in the returned metrics, matching the Python object
state after the exception. -/
def acquire (cfg : RateLimitConfig) (m0 : RateLimitMetrics) (wait : Bool)
    (now : Rat) (nowYM : YearMonth) : AcquireResult :=
  let m1 := resetIfNewMonth m0 nowYM
  if cfg.calls_per_month ≤ m1.monthly_calls then
    { metrics := m1, now := now
      err := some (.monthly m1.monthly_calls cfg.calls_per_month) }
  else
    let m2 := cleanupOldCalls m1 now
    if cfg.calls_per_minute ≤ m2.minute_calls.length then
      if wait = false then
        { metrics := m2, now := now
          err := some (.minute m2.minute_calls.length cfg.calls_per_minute) }
      else
        match m2.minute_calls with
        | [] => { metrics := m2, now := now, err := some .indexCrash }
        | oldest :: _ =>
            let waitTime : Rat := 60 - (now - oldest)
            let now2 := if 0 < waitTime then now + waitTime + 1/10 else now
            let m3 := cleanupOldCalls m2 now2
            { metrics := { m3 with
                minute_calls := m3.minute_calls ++ [now2]
                monthly_calls := m3.monthly_calls + 1 }
              now := now2, err := none }
    else
      { metrics := { m2 with
          minute_calls := m2.minute_calls ++ [now]
          monthly_calls := m2.monthly_calls + 1 }
        now := now, err := none }

/-- One call in a usage trace: the blocking flag and the wall clock at the
moment of the call. -/
structure AcquireStep where
  wait : Bool
  now : Rat
  nowYM : YearMonth
deriving DecidableEq

/-- Metrics after a sequence of `acquire` calls (failed calls keep their
pre-raise mutations, as in Python). -/
def runAcquires (cfg : RateLimitConfig) (m : RateLimitMetrics) :
    List AcquireStep → RateLimitMetrics
  | [] => m
  | s :: rest =>
      runAcquires cfg (acquire cfg m s.wait s.now s.nowYM).metrics rest

/-- The per-call outcomes of a sequence of `acquire` calls. -/
def runResults (cfg : RateLimitConfig) (m : RateLimitMetrics) :
    List AcquireStep → List (Option RateLimitExceeded)
  | [] => []
  | s :: rest =>
      (acquire cfg m s.wait s.now s.nowYM).err ::
        runResults cfg (acquire cfg m s.wait s.now s.nowYM).metrics rest

/-- Number of calls in a trace that succeed (raise nothing). -/
def successCount (cfg : RateLimitConfig) (m : RateLimitMetrics)
    (steps : List AcquireStep) : Nat :=
  ((runResults cfg m steps).filter (fun r => r.isNone)).length

/-! ## CheckpointManager (src/utils/checkpoint_manager.py) -/

/-- The `Checkpoint` dataclass (checkpoint_manager.py lines 24-32).  Python
dataclasses do not enforce their type annotations at runtime, so each field
holds an arbitrary JSON value; the annotated types (str, int, int, str, int,
dict) appear as the well-typedness predicate used by the round-trip
theorem. -/
structure Checkpoint where
  date : Json
  last_page : Json
  total_coins_collected : Json
  checkpoint_time : Json
  api_calls_used : Json
  metadata : Json
deriving DecidableEq

/-- Model of `json.dump(asdict(checkpoint))` (checkpoint_manager.py lines 104-105):
the serialized file is an object with the six dataclass fields in
declaration order. -/
def checkpointToJson (c : Checkpoint) : Json :=
  Json.objOf
    [("date", c.date), ("last_page", c.last_page),
     ("total_coins_collected", c.total_coins_collected),
     ("checkpoint_time", c.checkpoint_time),
     ("api_calls_used", c.api_calls_used), ("metadata", c.metadata)]

/-- the Python `str()` rendering of a JSON value, as used by the f-string that builds
the checkpoint filename.  Only scalar cases are rendered precisely;
composites never occur as dates in practice. -/
def pyStr : Json → String
  | .str s => s
  | .int n => toString n
  | .bool b => if b then "True" else "False"
  | .null => "None"
  | .float q => toString q
  | _ => "composite"

/-- The checkpoint directory, keyed by the date string embedded in the
filename `checkpoint_{date}.json`. -/
def CheckpointStore : Type := String → Option Json

/-- An empty checkpoint directory. -/
def emptyStore : CheckpointStore := fun _ => none

/-- The filename key a checkpoint is saved under: the `str()` of its date
field. -/
def checkpointKey (c : Checkpoint) : String := pyStr c.date

/-- Model of `CheckpointManager.save` (checkpoint_manager.py lines 85-117), at the
level of the directory contents after the temp-write plus atomic rename:
the file for the date of the checkpoint now holds its serialization,
unconditionally replacing whatever was there. -/
def saveCheckpoint (c : Checkpoint) (st : CheckpointStore) : CheckpointStore :=
  fun k => if k = checkpointKey c then some (checkpointToJson c) else st k

/-- The structured errors `CheckpointManager.restore` raises
(`CheckpointError` in the source; the Python messages are summarized by
constructor). -/
inductive CheckpointErr where
  | missingFields (missing : List String)
  | invalidLastPage
  | invalidTotal
  | notObject
deriving DecidableEq

/-- The required fields checked on restore (checkpoint_manager.py lines
144-145). -/
def requiredFields : List String :=
  ["date", "last_page", "total_coins_collected", "checkpoint_time", "api_calls_used"]

/-- Model of `isinstance(x, int)` on a parsed JSON value: Python booleans are ints. -/
def pyIsInt : Json → Bool
  | .int _ => true
  | .bool _ => true
  | _ => false

/-- The integer a Python int-or-bool stands for. -/
def pyIntVal : Json → Int
  | .int n => n
  | .bool b => if b then 1 else 0
  | _ => 0

/-- The validation part of `CheckpointManager.restore` (checkpoint_manager.py
lines 139-165): require the five fields, require `last_page` to be an
int ≥ 1 and `total_coins_collected` an int ≥ 0, and default `metadata` to an
empty dict.  A non-object file always ends in a `CheckpointError` (in Python
the field accesses raise and are re-wrapped). -/
def restoreFromJson (j : Json) : Except CheckpointErr Checkpoint :=
  if j.isObjNode then
    let missing := requiredFields.filter (fun f => (jsonLookup j f).isNone)
    if missing.isEmpty then
      match jsonLookup j "date", jsonLookup j "last_page",
          jsonLookup j "total_coins_collected", jsonLookup j "checkpoint_time",
          jsonLookup j "api_calls_used" with
      | some d, some lp, some tc, some ct, some ac =>
          if pyIsInt lp && decide (1 ≤ pyIntVal lp) then
            if pyIsInt tc && decide (0 ≤ pyIntVal tc) then
              .ok ⟨d, lp, tc, ct, ac, (jsonLookup j "metadata").getD Json.objNil⟩
            else .error .invalidTotal
          else .error .invalidLastPage
      | _, _, _, _, _ => .error (.missingFields missing)
    else .error (.missingFields missing)
  else .error .notObject

/-- Model of `CheckpointManager.restore` (checkpoint_manager.py lines 119-176): no
file means `None` (not an error); an existing file is parsed and
validated. -/
def restoreCheckpoint (st : CheckpointStore) (date : String) :
    Except CheckpointErr (Option Checkpoint) :=
  match st date with
  | none => .ok none
  | some j => (restoreFromJson j).map some

/-- The well-typedness demanded by the `Checkpoint` dataclass annotations:
date and checkpoint_time are strings, last_page is an int ≥ 1,
total_coins_collected an int ≥ 0, api_calls_used an int (metadata may be
any JSON-serializable value, which every `Json` is). -/
def WellTypedCheckpoint (c : Checkpoint) : Prop :=
  (∃ s, c.date = Json.str s) ∧
  (∃ n : Int, c.last_page = Json.int n ∧ 1 ≤ n) ∧
  (∃ n : Int, c.total_coins_collected = Json.int n ∧ 0 ≤ n) ∧
  (∃ s, c.checkpoint_time = Json.str s) ∧
  (∃ n : Int, c.api_calls_used = Json.int n)

/-! ## CoinGeckoCollector (src/collectors/coingecko_collector.py) -/

/-- What one `requests.get` of the markets endpoint produces: an HTTP
response with a status code and (for 200) the parsed coin array, or a
`requests.RequestException`. -/
inductive UpstreamResult where
  | http (status : Nat) (coins : List Json)
  | netError
deriving DecidableEq

/-- The errors `_fetch_page` raises (`CollectionError` in the source):
all attempts ended in a bad status, all attempts ended in a network error
(the last one decides the constructor), or the defensive fallthrough after
the loop. -/
inductive FetchErr where
  | failedAfter (attempts lastStatus : Nat)
  | networkAfter (attempts : Nat)
  | unexpected
deriving DecidableEq

/-- The in-attempt 429 handling (coingecko_collector.py lines 243-250): a
429 response triggers a fixed cooldown and one immediate re-request whose
result replaces the first.  Returns the effective response of this attempt
and the next unused index into the request stream. -/
def fetchEffective (resp : Nat → UpstreamResult) (idx : Nat) :
    UpstreamResult × Nat :=
  match resp idx with
  | .http status coins =>
      if status = 429 then (resp (idx + 1), idx + 2)
      else (.http status coins, idx + 1)
  | .netError => (.netError, idx + 1)

/-- The attempt loop of `_fetch_page` (coingecko_collector.py lines
235-288): a 200 returns the coins; any other status and any network error
count as a failed attempt, retried with exponential backoff while attempts
remain, and raise `CollectionError` on the last attempt.  `attemptsLeft`
starts at `retries`; the result carries the next unused request index, so
the number of requests issued is the index delta. -/
def fetchPageGo (resp : Nat → UpstreamResult) (retries : Nat) :
    Nat → Nat → Except FetchErr (List Json) × Nat
  | idx, 0 => (.error .unexpected, idx)
  | idx, n + 1 =>
      match fetchEffective resp idx with
      | (.http status coins, idx2) =>
          if status = 200 then (.ok coins, idx2)
          else if n = 0 then (.error (.failedAfter retries status), idx2)
          else fetchPageGo resp retries idx2 n
      | (.netError, idx2) =>
          if n = 0 then (.error (.networkAfter retries), idx2)
          else fetchPageGo resp retries idx2 n

/-- Model of `_fetch_page` for one page: run the attempt loop from the start of the
request stream of that page with `retries` attempts (`MAX_RETRIES = 3` at the
call site). -/
def fetchPage (resp : Nat → UpstreamResult) (retries : Nat) :
    Except FetchErr (List Json) × Nat :=
  fetchPageGo resp retries 0 retries

/-- Whether the id of a raw record is present and truthy (`if coin_id:`). -/
def hasTruthyId (coin : Json) : Bool :=
  match jsonGet coin "id" with
  | some cid => pyTruthy cid
  | none => false

/-- The dedup state of `collect_all_coins`: the accumulated coins, the set
of seen ids (as a list with membership semantics), and the duplicate
counter. -/
structure DedupState where
  all_coins : List Json
  seen_coin_ids : List Json
  duplicates_skipped : Nat
deriving DecidableEq

/-- The loop body over one record (coingecko_collector.py lines 159-166):
append the coin and remember its id when the id is truthy and unseen; count
a duplicate when the id is truthy but seen; silently drop records without a
truthy id. -/
def dedupStep (st : DedupState) (coin : Json) : DedupState :=
  match jsonGet coin "id" with
  | some cid =>
      if pyTruthy cid then
        if cid ∈ st.seen_coin_ids then
          { st with duplicates_skipped := st.duplicates_skipped + 1 }
        else
          { st with all_coins := st.all_coins ++ [coin]
                    seen_coin_ids := st.seen_coin_ids ++ [cid] }
      else st
  | none => st

/-- Process one fetched page through the dedup loop. -/
def processPage (st : DedupState) (coins : List Json) : DedupState :=
  coins.foldl dedupStep st

/-- Model of `COINS_PER_PAGE` (coingecko_collector.py line 80). -/
def COINS_PER_PAGE : Nat := 250

/-- The page loop of `collect_all_coins` (coingecko_collector.py lines
140-182) over a fetch oracle giving the coins of each page (a run in which every
`_fetch_page` succeeds; a failed fetch aborts the run and saves nothing).
Terminates on an empty page, on a partial page, or at the 100-page safety
limit; the fuel argument only realizes that bound in Lean and starts at
100, which the safety check keeps from ever reaching zero. -/
def collectGo (fetch : Nat → List Json) : Nat → DedupState → Nat →
    List Json × Nat
  | _, st, 0 => (st.all_coins, st.duplicates_skipped)
  | page, st, fuel + 1 =>
      let coins := fetch page
      if coins.isEmpty then (st.all_coins, st.duplicates_skipped)
      else
        let st2 := processPage st coins
        if coins.length < COINS_PER_PAGE then
          (st2.all_coins, st2.duplicates_skipped)
        else if 100 < page + 1 then (st2.all_coins, st2.duplicates_skipped)
        else collectGo fetch (page + 1) st2 fuel

/-- The saved raw snapshot (`_save_raw_data`, coingecko_collector.py lines
290-320): metadata plus the coins array as collected. -/
structure RawSnapshot where
  total_coins : Nat
  coins : List Json
deriving DecidableEq

/-- Model of `collect_all_coins` for a run whose page fetches all succeed: run the
dedup page loop from page 1 and save the snapshot; also return the
duplicate count the final log line reports. -/
def collectAllCoins (fetch : Nat → List Json) : RawSnapshot × Nat :=
  let r := collectGo fetch 1 ⟨[], [], 0⟩ 100
  (⟨r.1.length, r.1⟩, r.2)

/-- The concatenation of the pages the loop in `collect_all_coins` actually
iterates over, in order: the same recursion as `collectGo` without the
dedup state. -/
def examinedGo (fetch : Nat → List Json) : Nat → Nat → List Json
  | _, 0 => []
  | page, fuel + 1 =>
      let coins := fetch page
      if coins.isEmpty then []
      else if coins.length < COINS_PER_PAGE then coins
      else if 100 < page + 1 then coins
      else coins ++ examinedGo fetch (page + 1) fuel

/-- All records examined by a `collect_all_coins` run. -/
def examinedCoins (fetch : Nat → List Json) : List Json :=
  examinedGo fetch 1 100

/-- Number of examined records carrying a truthy id (the ones the dedup
loop either keeps or counts as duplicates). -/
def truthyIdCount (coins : List Json) : Nat :=
  (coins.filter hasTruthyId).length

/-! ## File write traces (checkpoint saves and builder outputs)

For the atomicity claim the relevant shape of each write routine is the
sequence of filesystem operations it performs against its output path. -/

/-- A filesystem operation relevant to write atomicity. -/
inductive FsOp where
  | write (path : String)
  | rename (src dst : String)
  | unlink (path : String)
deriving DecidableEq

/-- The final path of a saved checkpoint,
`checkpoint_dir / f"checkpoint_{date}.json"`. -/
def checkpointFinalPath (dir date : String) : String :=
  dir ++ "/checkpoint_" ++ date ++ ".json"

/-- Model of `CheckpointManager.save` I/O (checkpoint_manager.py lines 98-108): write
the temp file `{filename}.tmp`, then atomically rename it over the final
path. -/
def checkpointSaveOps (dir date : String) : List FsOp :=
  [.write (checkpointFinalPath dir date ++ ".tmp"),
   .rename (checkpointFinalPath dir date ++ ".tmp") (checkpointFinalPath dir date)]

/-- Model of `CSVBuilder._build_csv` I/O (build_csv.py line 106):
`gzip.open(output_file)` opened for writing targets the final path directly. -/
def csvBuildWriteOps (output : String) : List FsOp :=
  [.write output]

/-- Model of `DuckDBBuilder._build_duckdb` I/O (build_duckdb.py line 105):
`duckdb.connect(str(output_file))` creates and fills the final path
directly. -/
def duckdbBuildWriteOps (output : String) : List FsOp :=
  [.write output]

/-- Model of `ParquetBuilder._build_parquet` I/O (build_parquet.py lines 146-153):
`pq.write_table` writes the partition file at its final path directly. -/
def parquetBuildWriteOps (partitionFile : String) : List FsOp :=
  [.write partitionFile]

/-- Whether a trace ever writes the final path directly (so a reader could
observe it partially written). -/
def writesDirectly (ops : List FsOp) (final : String) : Bool :=
  ops.any (fun op =>
    match op with
    | .write p => p = final
    | _ => false)

/-- The temp-file-then-atomic-rename pattern: the final path is never the
target of a direct write and is produced by a rename. -/
def usesTempThenRename (ops : List FsOp) (final : String) : Bool :=
  !writesDirectly ops final &&
    ops.any (fun op =>
      match op with
      | .rename _ dst => dst = final
      | _ => false)

/-! ## Dates and Python numeric coercion (src/builders/base_builder.py) -/

/-- A calendar date, the value of a `date32` cell. -/
structure DateV where
  year : Nat
  month : Nat
  day : Nat
deriving DecidableEq

/-- Gregorian leap year rule, as `datetime.date` validates it. -/
def isLeapYear (y : Nat) : Bool :=
  (y % 4 == 0 && y % 100 != 0) || y % 400 == 0

/-- Days in a month of a given year. -/
def daysInMonth (y m : Nat) : Nat :=
  if m = 2 then (if isLeapYear y then 29 else 28)
  else if m = 4 ∨ m = 6 ∨ m = 9 ∨ m = 11 then 30
  else 31

/-- Numeric value of a decimal digit character. -/
def digitVal (c : Char) : Nat := c.toNat - 48

/-- Value of a digit string. -/
def digitsVal (cs : List Char) : Nat :=
  cs.foldl (fun a c => a * 10 + digitVal c) 0

/-- Model of `datetime.date.fromisoformat` on a `YYYY-MM-DD` string: exactly ten
characters, digits in the date positions, dashes between, and a valid
calendar date. -/
def parseIsoDate (s : String) : Option DateV :=
  match s.toList with
  | [y1, y2, y3, y4, c1, m1, m2, c2, d1, d2] =>
      if c1 = '-' && c2 = '-' &&
          [y1, y2, y3, y4, m1, m2, d1, d2].all Char.isDigit then
        let y := digitsVal [y1, y2, y3, y4]
        let m := digitsVal [m1, m2]
        let d := digitsVal [d1, d2]
        if 1 ≤ m && m ≤ 12 && 1 ≤ d && d ≤ daysInMonth y m then
          some ⟨y, m, d⟩
        else none
      else none
  | _ => none

/-- the Python `float(str)` parse on an already-stripped string, for the plain
decimal forms `[+-]digits[.digits]`, `[+-].digits` and `[+-]digits.` that
occur in API payloads (exponents, infinities and NaN are outside the
model). -/
def pyParseFloat (s : String) : Option Rat :=
  let cs := s.toList
  let signAndRest : Int × List Char :=
    match cs with
    | '+' :: rest => (1, rest)
    | '-' :: rest => (-1, rest)
    | _ => (1, cs)
  let sign := signAndRest.1
  let body := signAndRest.2
  let ip := body.takeWhile (fun c => c ≠ '.')
  let rest := body.drop ip.length
  let fp : Option (List Char) :=
    match rest with
    | [] => some []
    | '.' :: f => if f.contains '.' then none else some f
    | _ => none
  match fp with
  | none => none
  | some f =>
      if ip.isEmpty && f.isEmpty then none
      else if ip.all Char.isDigit && f.all Char.isDigit then
        some ((sign : Rat) *
          ((digitsVal ip : Rat) + (digitsVal f : Rat) / ((10 : Rat) ^ f.length)))
      else none

/-- Model of `int(float(x))`: truncation toward zero. -/
def ratTrunc (q : Rat) : Int :=
  if 0 ≤ q then Rat.floor q else -(Rat.floor (-q))

/-- Model of `DatabaseBuilder._safe_int` (base_builder.py lines 113-136): `None`
falls back, ints pass through (Python bools count as ints), strings are
stripped and parsed through the float path, floats truncate, anything else
falls back.  JSON `null` reaches Python as `None`. -/
def safeInt (v : Option Json) (fallback : Int) : Int :=
  match v with
  | none => fallback
  | some .null => fallback
  | some (.int n) => n
  | some (.bool b) => if b then 1 else 0
  | some (.float q) => ratTrunc q
  | some (.str s) =>
      let t := s.trim
      if t = "" then fallback
      else
        match pyParseFloat t with
        | some q => ratTrunc q
        | none => fallback
  | some _ => fallback

/-- Model of `DatabaseBuilder._safe_float` (base_builder.py lines 138-159): same
shape with `None` instead of a fallback. -/
def safeFloat (v : Option Json) : Option Rat :=
  match v with
  | none => none
  | some .null => none
  | some (.int n) => some (n : Rat)
  | some (.bool b) => some (if b then 1 else 0)
  | some (.float q) => some q
  | some (.str s) =>
      let t := s.trim
      if t = "" then none else pyParseFloat t
  | some _ => none

/-! ## Canonical table and schema validator
(src/schemas/crypto_rankings_schema.py, src/validators/schema_validator.py) -/

/-- A PyArrow table holding canonical rows: the schema the table carries
(field name and type name pairs) plus one value list per column. -/
structure ArrowTable where
  schemaFields : List (String × String)
  dates : List (Option DateV)
  ranks : List (Option Int)
  coin_ids : List (Option String)
  symbols : List (Option String)
  names : List (Option String)
  market_caps : List (Option Rat)
  prices : List (Option Rat)
  volumes_24h : List (Option Rat)
  price_changes : List (Option Rat)
deriving DecidableEq

/-- Model of `CRYPTO_RANKINGS_SCHEMA_V2` (crypto_rankings_schema.py lines 29-97) as
ordered (name, type) pairs. -/
def schemaV2Fields : List (String × String) :=
  [("date", "date32"), ("rank", "int64"), ("coin_id", "string"),
   ("symbol", "string"), ("name", "string"), ("market_cap", "double"),
   ("price", "double"), ("volume_24h", "double"),
   ("price_change_24h_pct", "double")]

/-- The typed validation findings of `validate_arrow_table`; Python raises
them as exception objects carrying a message, modelled here by constructor
plus the quantities the message reports. -/
inductive VError where
  | schemaMissing (missing : List String)
  | schemaExtra (extra : List String)
  | schemaTypeMismatch (field : String)
  | duplicatePairs (count : Nat)
  | nullRequired (field : String) (count : Nat)
  | rankMin (minRank : Int)
  | rankMax (maxRank : Int) (rows : Nat)
  | rankCheckCrash
  | negativeMarketCap (count : Nat)
deriving DecidableEq

/-- Validation 1, schema conformance (schema_validator.py lines 80-110):
on mismatch report missing columns, extra columns (Hive partition columns
year/month/day are allowed), and per-field type mismatches. -/
def schemaCheck (actual : List (String × String)) : List VError :=
  if actual = schemaV2Fields then []
  else
    let expectedNames := schemaV2Fields.map Prod.fst
    let actualNames := actual.map Prod.fst
    let missing := expectedNames.filter (fun n => !actualNames.contains n)
    let extra := (actualNames.filter (fun n => !expectedNames.contains n)).filter
      (fun n => !(["year", "month", "day"].contains n))
    (if missing.isEmpty then [] else [.schemaMissing missing]) ++
    (if extra.isEmpty then [] else [.schemaExtra extra]) ++
    schemaV2Fields.filterMap (fun p =>
      match actual.find? (fun q => q.1 = p.1) with
      | some q => if q.2 ≠ p.2 then some (.schemaTypeMismatch p.1) else none
      | none => none)

/-- The (date, coin_id) key of each row, in row order. -/
def rowPairs (t : ArrowTable) : List (Option DateV × Option String) :=
  t.dates.zip t.coin_ids

/-- Validation 2, duplicate detection (schema_validator.py lines 112-121):
`df.duplicated(subset=["date", "coin_id"], keep=False)` marks every row
whose key occurs more than once. -/
def dupCheck (t : ArrowTable) : List VError :=
  let pairs := rowPairs t
  let dups := pairs.filter (fun p => 2 ≤ pairs.countP (fun q => q = p))
  if dups.isEmpty then [] else [.duplicatePairs dups.length]

/-- Number of nulls in a column. -/
def countNone {α : Type} (l : List (Option α)) : Nat :=
  (l.filter (fun x => x.isNone)).length

/-- Validation 3, required-field null checks (schema_validator.py lines
123-137) over date, rank and coin_id. -/
def nullCheck (t : ArrowTable) : List VError :=
  (if countNone t.dates = 0 then [] else [.nullRequired "date" (countNone t.dates)]) ++
  (if countNone t.ranks = 0 then [] else [.nullRequired "rank" (countNone t.ranks)]) ++
  (if countNone t.coin_ids = 0 then [] else
    [.nullRequired "coin_id" (countNone t.coin_ids)])

/-- Validation 4, rank range (schema_validator.py lines 139-168): on a
non-empty rank column, flag a minimum below 1 and a maximum above twice the
row count; duplicate rank values are only logged, never flagged.  A null in
the column makes the Python `min` comparison raise, which the
enclosing `except` of the rule turns into a single generic range error (`rankCheckCrash`). -/
def rankRangeCheck (ranks : List (Option Int)) : List VError :=
  match ranks with
  | [] => []
  | _ =>
      if ranks.any (fun r => r.isNone) then [.rankCheckCrash]
      else
        match ranks.filterMap id with
        | [] => []
        | r :: rest =>
            let mn := rest.foldl min r
            let mx := rest.foldl max r
            let n := ranks.length
            (if mn < 1 then [.rankMin mn] else []) ++
            (if (n : Int) * 2 < mx then [.rankMax mx n] else [])

/-- Validation 5, market cap values (schema_validator.py lines 170-180):
populated market caps must not be negative. -/
def marketCapCheck (caps : List (Option Rat)) : List VError :=
  let vals := caps.filterMap id
  if vals.isEmpty then []
  else
    let neg := vals.filter (fun c => decide (c < 0))
    if neg.isEmpty then [] else [.negativeMarketCap neg.length]

/-- Model of `validate_arrow_table` (schema_validator.py lines 58-182): all five
checks run regardless of earlier findings and their findings are
concatenated. -/
def validateArrowTable (t : ArrowTable) : List VError :=
  schemaCheck t.schemaFields ++ dupCheck t ++ nullCheck t ++
    rankRangeCheck t.ranks ++ marketCapCheck t.market_caps

/-- Model of `validate_and_raise` (schema_validator.py lines 185-201): raise one
aggregated error when any check finds a violation. -/
def validateAndRaise (t : ArrowTable) : Except (List VError) Unit :=
  if validateArrowTable t = [] then .ok () else .error (validateArrowTable t)

/-! ## Builders (src/builders/*.py) -/

/-- Builder failures surfaced as `BuildError`. -/
inductive BuildErr where
  | invalidDate (s : String)
  | tableConstruction
deriving DecidableEq

/-- A raw value destined for a `pa.string()` column: `None` and strings
convert, anything else makes table construction raise. -/
def toStrOpt (v : Option Json) : Except BuildErr (Option String) :=
  match v with
  | none => .ok none
  | some .null => .ok none
  | some (.str s) => .ok (some s)
  | some _ => .error .tableConstruction

/-- Model of `DatabaseBuilder._transform_to_rows` (base_builder.py lines 161-228):
parse the collection date, coerce the fields of each record defensively
(`market_cap_rank` falls back to the 1-based position), and assemble the
table under the canonical schema. -/
def transformToRows (collection_date : String) (coins : List Json) :
    Except BuildErr ArrowTable :=
  match parseIsoDate collection_date with
  | none => .error (.invalidDate collection_date)
  | some d => do
      let ids ← coins.mapM (fun c => toStrOpt (jsonGet c "id"))
      let syms ← coins.mapM (fun c => toStrOpt (jsonGet c "symbol"))
      let nms ← coins.mapM (fun c => toStrOpt (jsonGet c "name"))
      .ok
        { schemaFields := schemaV2Fields
          dates := coins.map (fun _ => some d)
          ranks := (List.enumFrom 1 coins).map
            (fun p => some (safeInt (jsonGet p.2 "market_cap_rank") (p.1 : Int)))
          coin_ids := ids
          symbols := syms
          names := nms
          market_caps := coins.map (fun c => safeFloat (jsonGet c "market_cap"))
          prices := coins.map (fun c => safeFloat (jsonGet c "current_price"))
          volumes_24h := coins.map (fun c => safeFloat (jsonGet c "total_volume"))
          price_changes := coins.map
            (fun c => safeFloat (jsonGet c "price_change_percentage_24h")) }

/-- The pipeline stages a builder `build()` could perform. -/
inductive BuildStep where
  | parseRaw
  | transform
  | validateTable
  | writeEncoding
  | readBackValidate
deriving DecidableEq

/-- The stages `CSVBuilder.build` actually performs (build_csv.py lines
41-88): parse, transform, write; no validator call and no read-back before
returning. -/
def csvBuildPipeline : List BuildStep := [.parseRaw, .transform, .writeEncoding]

/-- The stages `DuckDBBuilder.build` actually performs (build_duckdb.py
lines 43-90). -/
def duckdbBuildPipeline : List BuildStep := [.parseRaw, .transform, .writeEncoding]

/-- The stages `ParquetBuilder.build` actually performs (build_parquet.py
lines 44-94). -/
def parquetBuildPipeline : List BuildStep := [.parseRaw, .transform, .writeEncoding]

/-- The end-to-end scenario of the spec: three records with ranks 1, 2, 3, ids
a, b, c, where c carries market_cap = −5. -/
def e2eBadCoins : List Json :=
  [Json.objOf [("id", .str "a"), ("market_cap_rank", .int 1),
     ("market_cap", .int 1000)],
   Json.objOf [("id", .str "b"), ("market_cap_rank", .int 2),
     ("market_cap", .int 500)],
   Json.objOf [("id", .str "c"), ("market_cap_rank", .int 3),
     ("market_cap", .int (-5))]]

/-! ## Predicates and concrete inputs used by the theorems -/

/-- The quota invariant claimed for the rate limiter state: the sliding
window holds at most the per-minute limit and the monthly counter at most
the monthly limit. -/
def QuotaInv (cfg : RateLimitConfig) (m : RateLimitMetrics) : Prop :=
  m.minute_calls.length ≤ cfg.calls_per_minute ∧
    m.monthly_calls ≤ cfg.calls_per_month

/-- The invariant the dedup loop maintains: accumulated coins have pairwise
distinct ids, and every accumulated coin has a truthy id registered in the
seen set. -/
def DedupInv (st : DedupState) : Prop :=
  st.all_coins.Pairwise (fun a b => jsonGet a "id" ≠ jsonGet b "id") ∧
    ∀ c ∈ st.all_coins, ∃ cid, jsonGet c "id" = some cid ∧
      pyTruthy cid = true ∧ cid ∈ st.seen_coin_ids

/-- A request stream whose first response is a tier error (HTTP 402) and
whose second is a success. -/
def stream402then200 : Nat → UpstreamResult := fun i =>
  if i = 0 then .http 402 []
  else .http 200 [Json.objOf [("id", Json.str "bitcoin")]]

/-- A request stream answering every request with HTTP 402. -/
def streamAll402 : Nat → UpstreamResult := fun _ => .http 402 []

/-- A checkpoint for 2025-01-01 recording page 5. -/
def cpPage5 : Checkpoint :=
  ⟨.str "2025-01-01", .int 5, .int 1250, .str "2025-01-01T10:00:00", .int 5,
    Json.objOf [("status", .str "in_progress")]⟩

/-- A checkpoint for the same date recording the smaller page 3. -/
def cpPage3 : Checkpoint :=
  ⟨.str "2025-01-01", .int 3, .int 750, .str "2025-01-01T11:00:00", .int 3,
    Json.objOf [("status", .str "in_progress")]⟩

/-- A checkpoint file content missing the required `last_page` field. -/
def cpMissingField : Json :=
  Json.objOf
    [("date", .str "2025-01-02"), ("total_coins_collected", .int 10),
     ("checkpoint_time", .str "t"), ("api_calls_used", .int 1)]

/-! ## Rate limiter lemmas -/

theorem resetIfNewMonth_minute_calls (m : RateLimitMetrics) (ym : YearMonth) :
    (resetIfNewMonth m ym).minute_calls = m.minute_calls := by
  unfold resetIfNewMonth
  rcases hm : m.month_start with _ | ym2
  · rfl
  · by_cases h : ym2 = ym <;> simp [h]

theorem resetIfNewMonth_monthly_le (m : RateLimitMetrics) (ym : YearMonth) :
    (resetIfNewMonth m ym).monthly_calls ≤ m.monthly_calls := by
  unfold resetIfNewMonth
  rcases hm : m.month_start with _ | ym2
  · exact le_refl _
  · by_cases h : ym2 = ym <;> simp [h]

theorem cleanupOldCalls_monthly (m : RateLimitMetrics) (now : Rat) :
    (cleanupOldCalls m now).monthly_calls = m.monthly_calls := rfl

theorem cleanupOldCalls_sublist (m : RateLimitMetrics) (now : Rat) :
    (cleanupOldCalls m now).minute_calls.Sublist m.minute_calls :=
  List.filter_sublist m.minute_calls

theorem cleanupOldCalls_length_le (m : RateLimitMetrics) (now : Rat) :
    (cleanupOldCalls m now).minute_calls.length ≤ m.minute_calls.length :=
  (cleanupOldCalls_sublist m now).length_le

theorem acquire_quota_inv (cfg : RateLimitConfig) (m : RateLimitMetrics)
    (w : Bool) (now : Rat) (ym : YearMonth)
    (h1 : m.minute_calls.length ≤ cfg.calls_per_minute)
    (h2 : m.monthly_calls ≤ cfg.calls_per_month) :
    QuotaInv cfg (acquire cfg m w now ym).metrics := by
  have hrm := resetIfNewMonth_minute_calls m ym
  have hrmon := resetIfNewMonth_monthly_le m ym
  have hclen : (cleanupOldCalls (resetIfNewMonth m ym) now).minute_calls.length
      ≤ cfg.calls_per_minute := by
    calc (cleanupOldCalls (resetIfNewMonth m ym) now).minute_calls.length
        ≤ (resetIfNewMonth m ym).minute_calls.length :=
          cleanupOldCalls_length_le _ _
      _ ≤ cfg.calls_per_minute := by rw [hrm]; exact h1
  unfold acquire QuotaInv
  dsimp only
  split_ifs with hmon hmin hw
  · exact ⟨by rw [hrm]; exact h1, le_trans hrmon h2⟩
  · exact ⟨hclen, by rw [cleanupOldCalls_monthly]; exact le_trans hrmon h2⟩
  · split
    · exact ⟨hclen, by rw [cleanupOldCalls_monthly]; exact le_trans hrmon h2⟩
    · rename_i oldest tl hmc
      constructor
      · dsimp only [RateLimitMetrics.minute_calls]
        rw [List.length_append, List.length_singleton]
        have hold : ∀ now2 : Rat, oldest ≤ now2 - 60 →
            ((cleanupOldCalls (cleanupOldCalls (resetIfNewMonth m ym) now) now2).minute_calls.length + 1
              ≤ cfg.calls_per_minute) := by
          intro now2 hle
          have hfalse : ¬ (decide (now2 - 60 < oldest)) = true := by
            simp only [decide_eq_true_eq, not_lt]
            linarith
          have hstep : (cleanupOldCalls (cleanupOldCalls (resetIfNewMonth m ym) now) now2).minute_calls
              = ((cleanupOldCalls (resetIfNewMonth m ym) now).minute_calls).filter
                  (fun ts => decide (now2 - 60 < ts)) := rfl
          have hcons : List.filter (fun ts => decide (now2 - 60 < ts)) (oldest :: tl)
              = List.filter (fun ts => decide (now2 - 60 < ts)) tl := by
            rw [List.filter_cons]
            simp only [if_neg hfalse]
          rw [hstep, hmc, hcons]
          have h3 : (tl.filter (fun ts => decide (now2 - 60 < ts))).length ≤ tl.length :=
            (List.filter_sublist tl).length_le
          have h4 : tl.length + 1
              = (cleanupOldCalls (resetIfNewMonth m ym) now).minute_calls.length := by
            rw [hmc]; simp
          omega
        split_ifs with hwt
        · apply hold
          have : (60 : Rat) - (now - oldest) > 0 := hwt
          linarith
        · apply hold
          have : ¬ (0 : Rat) < 60 - (now - oldest) := hwt
          linarith
      · dsimp only [RateLimitMetrics.monthly_calls]
        rw [cleanupOldCalls_monthly, cleanupOldCalls_monthly]
        omega
  · refine ⟨?_, ?_⟩
    · dsimp only [RateLimitMetrics.minute_calls]
      rw [List.length_append]
      simp only [List.length_cons, List.length_nil]
      omega
    · dsimp only [RateLimitMetrics.monthly_calls]
      rw [cleanupOldCalls_monthly]
      omega

theorem runAcquires_quota_inv (cfg : RateLimitConfig) (steps : List AcquireStep) :
    ∀ m : RateLimitMetrics, QuotaInv cfg m → QuotaInv cfg (runAcquires cfg m steps) := by
  induction steps with
  | nil => intro m h; exact h
  | cons s rest ih =>
      intro m h
      exact ih _ (acquire_quota_inv cfg m s.wait s.now s.nowYM h.1 h.2)

/-- C3: after any trace of acquire calls from the initial rate limiter
state, a further successful acquire (blocking or not) keeps the sliding
window at or below the per-minute limit and the monthly counter at or below
the monthly limit. -/
theorem acquire_post_state_within_limits (cfg : RateLimitConfig)
    (steps : List AcquireStep) (s : AcquireStep)
    (hsucc : (acquire cfg (runAcquires cfg initMetrics steps) s.wait s.now s.nowYM).err = none) :
    (acquire cfg (runAcquires cfg initMetrics steps) s.wait s.now s.nowYM).metrics.minute_calls.length
        ≤ cfg.calls_per_minute ∧
    (acquire cfg (runAcquires cfg initMetrics steps) s.wait s.now s.nowYM).metrics.monthly_calls
        ≤ cfg.calls_per_month := by
  have hrun : QuotaInv cfg (runAcquires cfg initMetrics steps) :=
    runAcquires_quota_inv cfg steps initMetrics ⟨Nat.zero_le _, Nat.zero_le _⟩
  exact acquire_quota_inv cfg _ s.wait s.now s.nowYM hrun.1 hrun.2

/-- Witness for C3 at a concrete call from the initial state. -/
theorem acquire_post_state_within_limits_witness :
    (acquire ⟨2, 5⟩ (runAcquires ⟨2, 5⟩ initMetrics [])
        false 0 ⟨2025, 1⟩).err = none ∧
    ((acquire ⟨2, 5⟩ (runAcquires ⟨2, 5⟩ initMetrics [])
        false 0 ⟨2025, 1⟩).metrics.minute_calls.length ≤ 2 ∧
      (acquire ⟨2, 5⟩ (runAcquires ⟨2, 5⟩ initMetrics [])
        false 0 ⟨2025, 1⟩).metrics.monthly_calls ≤ 5) :=
  ⟨by decide,
    acquire_post_state_within_limits ⟨2, 5⟩ []
      ⟨false, 0, ⟨2025, 1⟩⟩ (by decide)⟩

/-- C10: whenever acquire raises, the call has appended no timestamp to the
sliding window (the window after the call is a sublist of the window
before) and has not incremented the monthly counter. -/
theorem acquire_failure_preserves_quota (cfg : RateLimitConfig)
    (m : RateLimitMetrics) (w : Bool) (now : Rat) (ym : YearMonth)
    (e : RateLimitExceeded)
    (h : (acquire cfg m w now ym).err = some e) :
    (acquire cfg m w now ym).metrics.minute_calls.Sublist m.minute_calls ∧
    (acquire cfg m w now ym).metrics.monthly_calls ≤ m.monthly_calls := by
  have hrm := resetIfNewMonth_minute_calls m ym
  have hrmon := resetIfNewMonth_monthly_le m ym
  have hsub : (cleanupOldCalls (resetIfNewMonth m ym) now).minute_calls.Sublist
      m.minute_calls := by
    have := cleanupOldCalls_sublist (resetIfNewMonth m ym) now
    rwa [hrm] at this
  unfold acquire at h ⊢
  dsimp only at h ⊢
  split_ifs at h ⊢ with hmon hmin hw
  · exact ⟨by rw [hrm], hrmon⟩
  · exact ⟨hsub, by rw [cleanupOldCalls_monthly]; exact hrmon⟩
  · split at h
    · exact ⟨hsub, by rw [cleanupOldCalls_monthly]; exact hrmon⟩
    · exact absurd h (by simp)

/-- Witness for C10 at a limiter whose per-minute limit is zero. -/
theorem acquire_failure_preserves_quota_witness :
    (acquire ⟨0, 10⟩ initMetrics false 0 ⟨2025, 1⟩).err
        = some (.minute 0 0) ∧
    ((acquire ⟨0, 10⟩ initMetrics false 0 ⟨2025, 1⟩).metrics.minute_calls.Sublist
        initMetrics.minute_calls ∧
      (acquire ⟨0, 10⟩ initMetrics false 0 ⟨2025, 1⟩).metrics.monthly_calls
        ≤ initMetrics.monthly_calls) :=
  ⟨by decide,
    acquire_failure_preserves_quota ⟨0, 10⟩ initMetrics false 0 ⟨2025, 1⟩
      (.minute 0 0) (by decide)⟩

theorem cleanupOldCalls_month_start (m : RateLimitMetrics) (now : Rat) :
    (cleanupOldCalls m now).month_start = m.month_start := rfl

theorem resetIfNewMonth_eq (m : RateLimitMetrics) (ym : YearMonth)
    (hms : m.month_start = none ∨ m.month_start = some ym) :
    resetIfNewMonth m ym = { m with month_start := some ym } := by
  unfold resetIfNewMonth
  rcases hms with h | h
  · rw [h]
  · rw [h]
    dsimp only
    rw [if_pos rfl, ← h]

theorem successCount_nil (cfg : RateLimitConfig) (m : RateLimitMetrics) :
    successCount cfg m [] = 0 := rfl

theorem runResults_cons (cfg : RateLimitConfig) (m : RateLimitMetrics)
    (s : AcquireStep) (rest : List AcquireStep) :
    runResults cfg m (s :: rest)
      = (acquire cfg m s.wait s.now s.nowYM).err ::
          runResults cfg (acquire cfg m s.wait s.now s.nowYM).metrics rest := rfl

theorem successCount_cons (cfg : RateLimitConfig) (m : RateLimitMetrics)
    (s : AcquireStep) (rest : List AcquireStep) :
    successCount cfg m (s :: rest)
      = (if (acquire cfg m s.wait s.now s.nowYM).err = none then 1 else 0)
        + successCount cfg (acquire cfg m s.wait s.now s.nowYM).metrics rest := by
  unfold successCount
  rw [runResults_cons]
  rcases herr : (acquire cfg m s.wait s.now s.nowYM).err with _ | e
  · simp [List.filter_cons]
    omega
  · simp [List.filter_cons]

theorem acquire_month_step (cfg : RateLimitConfig) (m : RateLimitMetrics)
    (w : Bool) (now : Rat) (ym : YearMonth)
    (hms : m.month_start = none ∨ m.month_start = some ym) :
    (acquire cfg m w now ym).metrics.month_start = some ym ∧
    (acquire cfg m w now ym).metrics.monthly_calls
      = m.monthly_calls + (if (acquire cfg m w now ym).err = none then 1 else 0) := by
  have hreset := resetIfNewMonth_eq m ym hms
  set a := acquire cfg m w now ym with ha
  unfold acquire at ha
  rw [hreset] at ha
  dsimp only at ha
  split_ifs at ha with hmon hmin hw
  · rw [ha]; simp
  · rw [ha]; simp [cleanupOldCalls]
  · rcases hmc : (cleanupOldCalls
        { m with month_start := some ym } now).minute_calls with _ | ⟨oldest, tl⟩ <;>
      rw [hmc] at ha <;> dsimp only at ha
    · rw [ha]; simp [cleanupOldCalls]
    · rw [ha]; simp [cleanupOldCalls]
  · rw [ha]; simp [cleanupOldCalls]

theorem runAcquires_month_trace (cfg : RateLimitConfig) (ym : YearMonth) :
    ∀ (steps : List AcquireStep) (m : RateLimitMetrics),
      (∀ s ∈ steps, s.nowYM = ym) →
      (m.month_start = none ∨ m.month_start = some ym) →
      (runAcquires cfg m steps).monthly_calls
          = m.monthly_calls + successCount cfg m steps ∧
      ((runAcquires cfg m steps).month_start = none ∨
        (runAcquires cfg m steps).month_start = some ym) ∧
      (steps ≠ [] → (runAcquires cfg m steps).month_start = some ym) := by
  intro steps
  induction steps with
  | nil =>
      intro m hsteps hms
      refine ⟨by simp [runAcquires, successCount_nil], hms, by simp⟩
  | cons s rest ih =>
      intro m hsteps hms
      have hsym : s.nowYM = ym := hsteps s (List.mem_cons_self s rest)
      have hstep := acquire_month_step cfg m s.wait s.now ym hms
      have hrest := ih (acquire cfg m s.wait s.now ym).metrics
        (fun x hx => hsteps x (List.mem_cons_of_mem s hx)) (Or.inr hstep.1)
      rw [show runAcquires cfg m (s :: rest)
          = runAcquires cfg (acquire cfg m s.wait s.now s.nowYM).metrics rest from rfl,
        successCount_cons, hsym]
      refine ⟨?_, ?_, ?_⟩
      · rw [hrest.1, hstep.2]
        omega
      · exact hrest.2.1
      · intro _
        rcases rest with _ | ⟨r2, rest2⟩
        · simpa [runAcquires] using hstep.1
        · exact hrest.2.2 (by simp)

theorem acquire_monthly_exhausted (cfg : RateLimitConfig) (m : RateLimitMetrics)
    (w : Bool) (now : Rat) (ym : YearMonth)
    (hms : m.month_start = none ∨ m.month_start = some ym)
    (hM : cfg.calls_per_month ≤ m.monthly_calls) :
    (acquire cfg m w now ym).err
      = some (.monthly m.monthly_calls cfg.calls_per_month) := by
  have hreset := resetIfNewMonth_eq m ym hms
  set a := acquire cfg m w now ym with ha
  unfold acquire at ha
  rw [hreset] at ha
  dsimp only at ha
  rw [if_pos hM] at ha
  rw [ha]

theorem runAcquires_cons (cfg : RateLimitConfig) (m : RateLimitMetrics)
    (s : AcquireStep) (rest : List AcquireStep) :
    runAcquires cfg m (s :: rest)
      = runAcquires cfg (acquire cfg m s.wait s.now s.nowYM).metrics rest := rfl

theorem acquire_fresh_success (cfg : RateLimitConfig) (ym : YearMonth)
    (done : List Rat) (msp : Option YearMonth) (t : Rat)
    (hmsp : msp = none ∨ msp = some ym)
    (hkeep : ∀ x ∈ done, t - x < 60)
    (hmin : done.length < cfg.calls_per_minute)
    (hmon : done.length < cfg.calls_per_month) :
    acquire cfg ⟨done, done.length, msp⟩ false t ym
      = ⟨⟨done ++ [t], done.length + 1, some ym⟩, t, none⟩ := by
  have hms2 : (⟨done, done.length, msp⟩ : RateLimitMetrics).month_start = none ∨
      (⟨done, done.length, msp⟩ : RateLimitMetrics).month_start = some ym := hmsp
  have hreset := resetIfNewMonth_eq ⟨done, done.length, msp⟩ ym hms2
  have hfil : List.filter (fun ts => decide (t - 60 < ts)) done = done := by
    apply List.filter_eq_self.mpr
    intro x hx
    have := hkeep x hx
    simp only [decide_eq_true_eq]
    linarith
  have hclean : cleanupOldCalls ⟨done, done.length, some ym⟩ t
      = ⟨done, done.length, some ym⟩ := by
    unfold cleanupOldCalls
    dsimp only
    rw [hfil]
  set a := acquire cfg ⟨done, done.length, msp⟩ false t ym with ha
  unfold acquire at ha
  rw [hreset] at ha
  dsimp only at ha
  rw [hclean] at ha
  dsimp only at ha
  rw [if_neg (by omega), if_neg (by omega)] at ha
  exact ha

theorem runFresh (cfg : RateLimitConfig) (ym : YearMonth) :
    ∀ (todo done : List Rat) (msp : Option YearMonth),
      (msp = none ∨ msp = some ym) →
      (∀ a ∈ done ++ todo, ∀ b ∈ done ++ todo, b - a < 60) →
      done.length + todo.length ≤ cfg.calls_per_minute →
      cfg.calls_per_minute < cfg.calls_per_month →
      runResults cfg ⟨done, done.length, msp⟩ (todo.map (fun t => ⟨false, t, ym⟩))
          = List.replicate todo.length none ∧
      (runAcquires cfg ⟨done, done.length, msp⟩
          (todo.map (fun t => ⟨false, t, ym⟩))).minute_calls = done ++ todo ∧
      (runAcquires cfg ⟨done, done.length, msp⟩
          (todo.map (fun t => ⟨false, t, ym⟩))).monthly_calls
          = done.length + todo.length ∧
      ((runAcquires cfg ⟨done, done.length, msp⟩
          (todo.map (fun t => ⟨false, t, ym⟩))).month_start = none ∨
        (runAcquires cfg ⟨done, done.length, msp⟩
          (todo.map (fun t => ⟨false, t, ym⟩))).month_start = some ym) := by
  intro todo
  induction todo with
  | nil =>
      intro done msp hmsp hspan hlen hNM
      refine ⟨rfl, by simp [runAcquires], by simp [runAcquires], ?_⟩
      simpa [runAcquires] using hmsp
  | cons t rest ih =>
      intro done msp hmsp hspan hlen hNM
      have hkeep : ∀ x ∈ done, t - x < 60 := by
        intro x hx
        exact hspan x (List.mem_append_left _ hx) t
          (List.mem_append_right _ (List.mem_cons_self t rest))
      have hacq := acquire_fresh_success cfg ym done msp t hmsp hkeep
        (by simp at hlen; omega) (by simp at hlen; omega)
      have hlen2 : (done ++ [t]).length = done.length + 1 := by simp
      have hspan2 : ∀ a ∈ (done ++ [t]) ++ rest, ∀ b ∈ (done ++ [t]) ++ rest,
          b - a < 60 := by
        rw [List.append_assoc, List.singleton_append]
        exact hspan
      have hlen3 : (done ++ [t]).length + rest.length ≤ cfg.calls_per_minute := by
        simp at hlen ⊢
        omega
      have ihr := ih (done ++ [t]) (some ym) (Or.inr rfl) hspan2 hlen3 hNM
      rw [hlen2] at ihr
      rw [show (t :: rest).map (fun u => (⟨false, u, ym⟩ : AcquireStep))
          = (⟨false, t, ym⟩ : AcquireStep) :: rest.map (fun u => ⟨false, u, ym⟩) from rfl,
        runResults_cons, runAcquires_cons]
      dsimp only at hacq ⊢
      rw [hacq]
      dsimp only
      refine ⟨?_, ?_, ?_, ?_⟩
      · rw [ihr.1, List.length_cons, List.replicate_succ]
      · rw [ihr.2.1, List.append_assoc, List.singleton_append]
      · rw [ihr.2.2.1, List.length_cons]
        omega
      · exact ihr.2.2.2

theorem acquire_minute_exhausted (cfg : RateLimitConfig) (m : RateLimitMetrics)
    (t2 : Rat) (ym : YearMonth)
    (hms : m.month_start = none ∨ m.month_start = some ym)
    (hmon : m.monthly_calls < cfg.calls_per_month)
    (hkeep : ∀ x ∈ m.minute_calls, t2 - x < 60)
    (hfull : cfg.calls_per_minute ≤ m.minute_calls.length) :
    (acquire cfg m false t2 ym).err
      = some (.minute m.minute_calls.length cfg.calls_per_minute) := by
  have hreset := resetIfNewMonth_eq m ym hms
  have hfil : m.minute_calls.filter (fun x => decide (t2 - 60 < x))
      = m.minute_calls := by
    apply List.filter_eq_self.mpr
    intro x hx
    have := hkeep x hx
    simp only [decide_eq_true_eq]
    linarith
  have hclean : cleanupOldCalls { m with month_start := some ym } t2
      = { m with month_start := some ym } := by
    unfold cleanupOldCalls
    dsimp only
    rw [hfil]
  set a := acquire cfg m false t2 ym with ha
  unfold acquire at ha
  rw [hreset] at ha
  dsimp only at ha
  rw [hclean] at ha
  dsimp only at ha
  rw [if_neg (by omega), if_pos hfull, if_pos rfl] at ha
  rw [ha]

/-- C4: with per-minute limit N strictly below monthly limit M, a fresh
limiter grants N non-blocking acquires inside one 60-second span and raises
the minute-quota error on the (N+1)th; and once a trace within one calendar
month has accumulated exactly M successful acquires, the next call raises
the monthly-quota error whatever the blocking flag. -/
theorem rate_limit_boundary_behavior (cfg : RateLimitConfig)
    (hNM : cfg.calls_per_minute < cfg.calls_per_month)
    (ts : List Rat) (hlen : ts.length = cfg.calls_per_minute)
    (t2 : Rat) (ym : YearMonth)
    (hspan : ∀ a ∈ ts ++ [t2], ∀ b ∈ ts ++ [t2], b - a < 60)
    (steps2 : List AcquireStep) (hym : ∀ s ∈ steps2, s.nowYM = ym)
    (hM : successCount cfg initMetrics steps2 = cfg.calls_per_month)
    (w : Bool) (t3 : Rat) :
    runResults cfg initMetrics (ts.map (fun t => ⟨false, t, ym⟩))
        = List.replicate cfg.calls_per_minute none ∧
    (acquire cfg (runAcquires cfg initMetrics (ts.map (fun t => ⟨false, t, ym⟩)))
        false t2 ym).err
        = some (.minute cfg.calls_per_minute cfg.calls_per_minute) ∧
    (acquire cfg (runAcquires cfg initMetrics steps2) w t3 ym).err
        = some (.monthly cfg.calls_per_month cfg.calls_per_month) := by
  have hspanTs : ∀ a ∈ ts, ∀ b ∈ ts, b - a < 60 := fun a ha b hb =>
    hspan a (List.mem_append_left _ ha) b (List.mem_append_left _ hb)
  have hfr := runFresh cfg ym ts [] none (Or.inl rfl) hspanTs
    (by simp [hlen]) hNM
  have hMmin : (runAcquires cfg initMetrics
      (ts.map (fun t => ⟨false, t, ym⟩))).minute_calls = ts := by
    simpa using hfr.2.1
  have hMmon : (runAcquires cfg initMetrics
      (ts.map (fun t => ⟨false, t, ym⟩))).monthly_calls = ts.length := by
    simpa using hfr.2.2.1
  have hMms := hfr.2.2.2
  refine ⟨?_, ?_, ?_⟩
  · rw [← hlen]
    exact hfr.1
  · have h2 := acquire_minute_exhausted cfg
      (runAcquires cfg initMetrics (ts.map (fun t => ⟨false, t, ym⟩))) t2 ym hMms
      (by rw [hMmon, hlen]; exact hNM)
      (by
        rw [hMmin]
        intro x hx
        exact hspan x (List.mem_append_left _ hx) t2
          (List.mem_append_right _ (List.mem_singleton_self t2)))
      (by rw [hMmin, hlen])
    rw [h2, hMmin, hlen]
  · have htrace := runAcquires_month_trace cfg ym steps2 initMetrics hym (Or.inl rfl)
    have hne : steps2 ≠ [] := by
      intro hnil
      rw [hnil, successCount_nil] at hM
      omega
    have hmon2 : (runAcquires cfg initMetrics steps2).monthly_calls
        = cfg.calls_per_month := by
      rw [htrace.1, hM]
      simp [initMetrics]
    have hms2 := htrace.2.2 hne
    have h3 := acquire_monthly_exhausted cfg (runAcquires cfg initMetrics steps2)
      w t3 ym (Or.inr hms2) (by rw [hmon2])
    rw [h3, hmon2]

/-- Witness for C4 with N = 1, M = 2: one call in the window succeeds, the
second raises the minute error; two spread-out successes exhaust the month
and the third call raises the monthly error even when blocking. -/
theorem rate_limit_boundary_behavior_witness :
    runResults ⟨1, 2⟩ initMetrics
        ([(0 : Rat)].map (fun t => ⟨false, t, ⟨2025, 1⟩⟩))
        = List.replicate 1 none ∧
    (acquire ⟨1, 2⟩ (runAcquires ⟨1, 2⟩ initMetrics
        ([(0 : Rat)].map (fun t => ⟨false, t, ⟨2025, 1⟩⟩))) false 1 ⟨2025, 1⟩).err
        = some (.minute 1 1) ∧
    (acquire ⟨1, 2⟩ (runAcquires ⟨1, 2⟩ initMetrics
        [⟨false, 0, ⟨2025, 1⟩⟩, ⟨false, 100, ⟨2025, 1⟩⟩]) true 200 ⟨2025, 1⟩).err
        = some (.monthly 2 2) :=
  rate_limit_boundary_behavior ⟨1, 2⟩ (by decide) [0] (by decide) 1 ⟨2025, 1⟩
    (by
      intro a ha b hb
      simp only [List.mem_append, List.mem_singleton] at ha hb
      rcases ha with rfl | rfl <;> rcases hb with rfl | rfl <;> norm_num)
    [⟨false, 0, ⟨2025, 1⟩⟩, ⟨false, 100, ⟨2025, 1⟩⟩] (by decide)
    (by
      norm_num [successCount, runResults, acquire, resetIfNewMonth,
        cleanupOldCalls, initMetrics, List.filter_cons])
    true 200

/-! ## Collector dedup lemmas -/

theorem dedupStep_inv (st : DedupState) (coin : Json) (h : DedupInv st) :
    DedupInv (dedupStep st coin) ∧
    (dedupStep st coin).all_coins.length + (dedupStep st coin).duplicates_skipped
      = st.all_coins.length + st.duplicates_skipped
        + (if hasTruthyId coin then 1 else 0) := by
  rcases hid : jsonGet coin "id" with _ | cid
  · have hb : dedupStep st coin = st := by
      unfold dedupStep
      rw [hid]
    rw [hb]
    exact ⟨h, by simp [hasTruthyId, hid]⟩
  · by_cases htr : pyTruthy cid = true
    · by_cases hseen : cid ∈ st.seen_coin_ids
      · have hb : dedupStep st coin
            = { st with duplicates_skipped := st.duplicates_skipped + 1 } := by
          unfold dedupStep
          rw [hid]
          dsimp only
          rw [if_pos htr, if_pos hseen]
        have htid : hasTruthyId coin = true := by simp [hasTruthyId, hid, htr]
        rw [hb, htid]
        refine ⟨⟨h.1, fun c hc => h.2 c hc⟩, ?_⟩
        simp
        omega
      · have hb : dedupStep st coin
            = { st with all_coins := st.all_coins ++ [coin],
                        seen_coin_ids := st.seen_coin_ids ++ [cid] } := by
          unfold dedupStep
          rw [hid]
          dsimp only
          rw [if_pos htr, if_neg hseen]
        have htid : hasTruthyId coin = true := by simp [hasTruthyId, hid, htr]
        rw [hb, htid]
        refine ⟨⟨?_, ?_⟩, ?_⟩
        · rw [List.pairwise_append]
          refine ⟨h.1, List.pairwise_singleton _ _, ?_⟩
          intro a ha b hb2
          rw [List.mem_singleton] at hb2
          subst hb2
          obtain ⟨cida, hga, _, hmema⟩ := h.2 a ha
          rw [hga, hid]
          intro hcontra
          injection hcontra with hc
          subst hc
          exact hseen hmema
        · intro c hc
          rcases List.mem_append.mp hc with hcl | hcr
          · obtain ⟨cidc, hgc, htrc, hmemc⟩ := h.2 c hcl
            exact ⟨cidc, hgc, htrc, List.mem_append_left _ hmemc⟩
          · rw [List.mem_singleton] at hcr
            subst hcr
            exact ⟨cid, hid, htr, List.mem_append_right _ (List.mem_singleton_self _)⟩
        · simp
          omega
    · have hb : dedupStep st coin = st := by
        unfold dedupStep
        rw [hid]
        dsimp only
        rw [if_neg htr]
      have htid : hasTruthyId coin = false := by
        simp [hasTruthyId, hid]
        exact Bool.not_eq_true _ ▸ htr
      rw [hb, htid]
      exact ⟨h, by simp⟩

theorem foldl_dedup (coins : List Json) : ∀ st : DedupState, DedupInv st →
    DedupInv (coins.foldl dedupStep st) ∧
    (coins.foldl dedupStep st).all_coins.length
        + (coins.foldl dedupStep st).duplicates_skipped
      = st.all_coins.length + st.duplicates_skipped + truthyIdCount coins := by
  induction coins with
  | nil =>
      intro st h
      exact ⟨h, by simp [truthyIdCount]⟩
  | cons c rest ih =>
      intro st h
      have hstep := dedupStep_inv st c h
      have hrest := ih (dedupStep st c) hstep.1
      refine ⟨hrest.1, ?_⟩
      have htc : truthyIdCount (c :: rest)
          = (if hasTruthyId c then 1 else 0) + truthyIdCount rest := by
        unfold truthyIdCount
        rw [List.filter_cons]
        by_cases hc : hasTruthyId c <;> simp [hc] <;> try omega
      rw [List.foldl_cons, htc]
      have h1 := hrest.2
      have h2 := hstep.2
      omega

theorem collectGo_eq (fetch : Nat → List Json) : ∀ (fuel page : Nat) (st : DedupState),
    collectGo fetch page st fuel
      = ((processPage st (examinedGo fetch page fuel)).all_coins,
         (processPage st (examinedGo fetch page fuel)).duplicates_skipped) := by
  intro fuel
  induction fuel with
  | zero => intro page st; rfl
  | succ n ih =>
      intro page st
      unfold collectGo examinedGo
      by_cases hemp : (fetch page).isEmpty
      · simp [hemp, processPage]
      · by_cases hlt : (fetch page).length < COINS_PER_PAGE
        · simp [hemp, hlt, processPage]
        · by_cases hsafe : 100 < page + 1
          · simp [hemp, hlt, hsafe, processPage]
          · simp [hemp, hlt, hsafe, processPage, ih (page + 1), List.foldl_append]

/-- C5: every completed collection run saves a snapshot whose coins have
pairwise distinct ids, and the kept coins plus the reported duplicate count
account exactly for every examined record with a truthy id; the snapshot
metadata reports the kept count. -/
theorem collect_dedup_unique_ids_and_count (fetch : Nat → List Json) :
    ((collectAllCoins fetch).1.coins).Pairwise
        (fun a b => jsonGet a "id" ≠ jsonGet b "id") ∧
    (collectAllCoins fetch).1.coins.length + (collectAllCoins fetch).2
        = truthyIdCount (examinedCoins fetch) ∧
    (collectAllCoins fetch).1.total_coins
        = (collectAllCoins fetch).1.coins.length := by
  unfold collectAllCoins examinedCoins
  rw [collectGo_eq]
  have h := foldl_dedup (examinedGo fetch 1 100) ⟨[], [], 0⟩
    ⟨List.Pairwise.nil, by simp⟩
  exact ⟨h.1.1, by simpa [processPage] using h.2, rfl⟩

/-! ## Checkpoint manager theorems -/

/-- C6: saving a well-typed checkpoint and restoring its date returns a
field-equal checkpoint; restoring a date with no file returns absent rather
than an error; and restoring a file that exists but misses a required field
raises a structured CheckpointError naming the missing field. -/
theorem checkpoint_round_trip
    (st1 : CheckpointStore) (c : Checkpoint) (hwt : WellTypedCheckpoint c)
    (st2 : CheckpointStore) (d2 : String) (h2 : st2 d2 = none)
    (st3 : CheckpointStore) (d3 : String) (j : Json) (f : String)
    (h3 : st3 d3 = some j) (hobj : j.isObjNode = true)
    (hf : f ∈ requiredFields) (hmiss : jsonLookup j f = none) :
    restoreCheckpoint (saveCheckpoint c st1) (checkpointKey c) = .ok (some c) ∧
    restoreCheckpoint st2 d2 = .ok none ∧
    ∃ missing, restoreCheckpoint st3 d3 = .error (.missingFields missing) ∧
      f ∈ missing := by
  obtain ⟨⟨ds, hd⟩, ⟨lp, hlp, hlp1⟩, ⟨tc, htc, htc0⟩, ⟨cts, hct⟩, ⟨ac, hac⟩⟩ := hwt
  refine ⟨?_, ?_, ?_⟩
  · have hl1 : jsonLookup (checkpointToJson c) "date" = some c.date := by
      simp [checkpointToJson, Json.objOf, jsonLookup]
    have hl2 : jsonLookup (checkpointToJson c) "last_page" = some c.last_page := by
      simp [checkpointToJson, Json.objOf, jsonLookup]
    have hl3 : jsonLookup (checkpointToJson c) "total_coins_collected"
        = some c.total_coins_collected := by
      simp [checkpointToJson, Json.objOf, jsonLookup]
    have hl4 : jsonLookup (checkpointToJson c) "checkpoint_time"
        = some c.checkpoint_time := by
      simp [checkpointToJson, Json.objOf, jsonLookup]
    have hl5 : jsonLookup (checkpointToJson c) "api_calls_used"
        = some c.api_calls_used := by
      simp [checkpointToJson, Json.objOf, jsonLookup]
    have hl6 : jsonLookup (checkpointToJson c) "metadata" = some c.metadata := by
      simp [checkpointToJson, Json.objOf, jsonLookup]
    have hstore : (saveCheckpoint c st1) (checkpointKey c)
        = some (checkpointToJson c) := by
      simp [saveCheckpoint]
    have hio : (checkpointToJson c).isObjNode = true := by
      simp [checkpointToJson, Json.objOf, Json.isObjNode]
    have hrj : restoreFromJson (checkpointToJson c) = .ok c := by
      unfold restoreFromJson
      rw [if_pos hio]
      simp only [requiredFields, List.filter_cons, List.filter_nil,
        hl1, hl2, hl3, hl4, hl5, hl6, Option.isNone_some]
      rw [hlp, htc]
      simp only [pyIsInt, pyIntVal, Bool.true_and, decide_eq_true_eq,
        Option.getD_some]
      rw [if_pos hlp1, if_pos htc0, ← hlp, ← htc]
      simp
    unfold restoreCheckpoint
    rw [hstore]
    dsimp only
    rw [hrj]
    rfl
  · unfold restoreCheckpoint
    rw [h2]
  · have hmem : f ∈ requiredFields.filter (fun g => (jsonLookup j g).isNone) :=
      List.mem_filter.mpr ⟨hf, by rw [hmiss]; rfl⟩
    have hne : (requiredFields.filter (fun g => (jsonLookup j g).isNone)).isEmpty
        = false := by
      rcases hfil : requiredFields.filter (fun g => (jsonLookup j g).isNone)
        with _ | ⟨x, xs⟩
      · rw [hfil] at hmem
        cases hmem
      · rfl
    have hres : restoreCheckpoint st3 d3
        = .error (.missingFields
            (requiredFields.filter (fun g => (jsonLookup j g).isNone))) := by
      unfold restoreCheckpoint
      rw [h3]
      dsimp only
      unfold restoreFromJson
      rw [if_pos hobj]
      dsimp only
      rw [if_neg (by simp [hne])]
      rfl
    exact ⟨_, hres, hmem⟩

/-- Witness for C6: a concrete round trip, a restore on an absent date, and
a restore of a file missing last_page. -/
theorem checkpoint_round_trip_witness :
    WellTypedCheckpoint cpPage5 ∧
    restoreCheckpoint (saveCheckpoint cpPage5 emptyStore) "2025-01-01"
        = .ok (some cpPage5) ∧
    restoreCheckpoint emptyStore "2025-03-03" = .ok none ∧
    ∃ missing, restoreCheckpoint
        (fun k => if k = "2025-01-02" then some cpMissingField else none)
        "2025-01-02" = .error (.missingFields missing) ∧
      "last_page" ∈ missing := by
  have hwt : WellTypedCheckpoint cpPage5 :=
    ⟨⟨"2025-01-01", rfl⟩, ⟨5, rfl, by decide⟩, ⟨1250, rfl, by decide⟩,
      ⟨"2025-01-01T10:00:00", rfl⟩, ⟨5, rfl⟩⟩
  have h := checkpoint_round_trip emptyStore cpPage5 hwt emptyStore "2025-03-03"
    rfl (fun k => if k = "2025-01-02" then some cpMissingField else none)
    "2025-01-02" cpMissingField "last_page" (by decide) (by decide) (by decide)
    (by decide)
  exact ⟨hwt, h.1, h.2.1, h.2.2⟩

/-- C8 counterexample: saving a checkpoint with last_page 3 after one with
last_page 5 for the same date does replace the stored checkpoint — the file
holds the smaller page and restore returns it, so save enforces no
monotonicity. -/
theorem save_smaller_page_replaces_counterexample :
    (saveCheckpoint cpPage3 (saveCheckpoint cpPage5 emptyStore)) "2025-01-01"
        = some (checkpointToJson cpPage3) ∧
    restoreCheckpoint (saveCheckpoint cpPage3 (saveCheckpoint cpPage5 emptyStore))
        "2025-01-01" = .ok (some cpPage3) ∧
    pyIntVal cpPage3.last_page < pyIntVal cpPage5.last_page := by decide

/-- C8 amended: save never compares pages; after any sequence of saves the
stored file for a date is the serialization of the last checkpoint saved
under that key, whatever its last_page. -/
theorem save_last_write_wins (st : CheckpointStore) (cs : List Checkpoint)
    (c : Checkpoint) :
    (List.foldl (fun s x => saveCheckpoint x s) st (cs ++ [c])) (checkpointKey c)
      = some (checkpointToJson c) := by
  rw [List.foldl_append]
  simp [saveCheckpoint]

/-! ## Write atomicity theorems -/

/-- C7 counterexample: the CSV builder writes the final artifact path
directly — its I/O trace contains a direct write of the final path and no
temp-file-then-rename. -/
theorem csv_write_not_atomic_counterexample :
    writesDirectly
        (csvBuildWriteOps "data/processed/crypto_rankings_2025-01-01.csv.gz")
        "data/processed/crypto_rankings_2025-01-01.csv.gz" = true ∧
    usesTempThenRename
        (csvBuildWriteOps "data/processed/crypto_rankings_2025-01-01.csv.gz")
        "data/processed/crypto_rankings_2025-01-01.csv.gz" = false := by decide

/-- C7 amended: only the checkpoint save follows the
temp-file-then-atomic-rename pattern; the DuckDB, Parquet and gzip CSV
builders all write their final output paths directly (relying on
delete-on-failure instead). -/
theorem write_atomicity_split (dir date out1 out2 out3 : String) :
    usesTempThenRename (checkpointSaveOps dir date)
        (checkpointFinalPath dir date) = true ∧
    writesDirectly (csvBuildWriteOps out1) out1 = true ∧
    writesDirectly (duckdbBuildWriteOps out2) out2 = true ∧
    writesDirectly (parquetBuildWriteOps out3) out3 = true := by
  have h4 : (".tmp" : String).length = 4 := rfl
  have hne : checkpointFinalPath dir date ++ ".tmp" ≠ checkpointFinalPath dir date := by
    intro h
    have hl := congrArg String.length h
    rw [String.length_append, h4] at hl
    omega
  refine ⟨?_, by simp [writesDirectly, csvBuildWriteOps],
    by simp [writesDirectly, duckdbBuildWriteOps],
    by simp [writesDirectly, parquetBuildWriteOps]⟩
  simp [usesTempThenRename, checkpointSaveOps, writesDirectly, hne]

/-! ## Collector fetch theorems -/

/-- C2 counterexample: a page fetch whose first response is HTTP 402 is
retried — the second request is issued and its 200 response is returned, so
an upstream-tier error is neither immediately fatal nor left unretried. -/
theorem fetch_402_retried_counterexample :
    (fetchPage stream402then200 3).1
        = .ok [Json.objOf [("id", Json.str "bitcoin")]] ∧
    (fetchPage stream402then200 3).2 = 2 := by decide

/-- C2 amended: a non-2xx, non-429 response (an HTTP-402-equivalent
included) is not a hard stop: the attempt loop retries it with backoff and
raises CollectionError only once the attempt budget (MAX_RETRIES = 3 at the
call site) is exhausted; on a stream of constant hard-error responses
exactly `retries` requests are issued before the error. -/
theorem fetch_nonok_retries_then_fatal (s : Nat) (body : List Json)
    (retries : Nat) (h1 : 0 < retries) (h2 : s ≠ 200) (h3 : s ≠ 429) :
    fetchPage (fun _ => .http s body) retries
      = (.error (.failedAfter retries s), retries) := by
  have heff : ∀ idx, fetchEffective (fun _ => .http s body) idx
      = (.http s body, idx + 1) := by
    intro idx
    unfold fetchEffective
    dsimp only
    rw [if_neg h3]
  suffices hgo : ∀ n idx, 0 < n →
      fetchPageGo (fun _ => .http s body) retries idx n
        = (.error (.failedAfter retries s), idx + n) by
    unfold fetchPage
    rw [hgo retries 0 h1]
    simp
  intro n
  induction n with
  | zero =>
      intro idx h
      exact absurd h (lt_irrefl 0)
  | succ k ih =>
      intro idx _
      unfold fetchPageGo
      rw [heff]
      dsimp only
      rw [if_neg h2]
      by_cases hk : k = 0
      · subst hk
        simp
      · rw [if_neg hk, ih (idx + 1) (Nat.pos_of_ne_zero hk)]
        congr 1
        omega

/-- Witness for the C2 amended claim on a constant-402 stream. -/
theorem fetch_nonok_retries_then_fatal_witness :
    0 < 3 ∧ (402 : Nat) ≠ 200 ∧ (402 : Nat) ≠ 429 ∧
    fetchPage streamAll402 3 = (.error (.failedAfter 3 402), 3) :=
  ⟨by decide, by decide, by decide,
    fetch_nonok_retries_then_fatal 402 [] 3 (by decide) (by decide) (by decide)⟩

/-! ## Validator theorems -/

/-- C9: on a non-empty rank column the rank-range rule flags a minimum
below 1, flags a maximum above twice the row count, and reports nothing
otherwise — in particular tied rank values alone never produce an error. -/
theorem rank_range_rule_characterization (r : Int) (rest : List Int) :
    (rest.foldl min r < 1 →
      VError.rankMin (rest.foldl min r) ∈ rankRangeCheck ((r :: rest).map some)) ∧
    (((r :: rest).length : Int) * 2 < rest.foldl max r →
      VError.rankMax (rest.foldl max r) (r :: rest).length
        ∈ rankRangeCheck ((r :: rest).map some)) ∧
    (1 ≤ rest.foldl min r → rest.foldl max r ≤ ((r :: rest).length : Int) * 2 →
      rankRangeCheck ((r :: rest).map some) = []) := by
  have hnone : ((r :: rest).map some).any (fun x => x.isNone) = false := by
    simp
  have hfm : ((r :: rest).map some).filterMap id = r :: rest := by
    simp
  have hE : rankRangeCheck ((r :: rest).map some)
      = (if rest.foldl min r < 1
          then [VError.rankMin (rest.foldl min r)] else [])
        ++ (if ((r :: rest).length : Int) * 2 < rest.foldl max r
            then [VError.rankMax (rest.foldl max r) (r :: rest).length]
            else []) := by
    unfold rankRangeCheck
    rw [List.map_cons]
    rw [if_neg (by simpa using hnone)]
    rw [show (some r :: rest.map some).filterMap id = r :: rest by simpa using hfm]
    dsimp only
    simp only [List.length_cons, List.length_map]
  rw [hE]
  refine ⟨?_, ?_, ?_⟩
  · intro h1
    rw [if_pos h1]
    exact List.mem_append_left _ (List.mem_singleton_self _)
  · intro h2
    rw [if_pos h2]
    exact List.mem_append_right _ (List.mem_singleton_self _)
  · intro h1 h2
    rw [if_neg (not_lt.mpr h1), if_neg (not_lt.mpr h2)]
    rfl

/-- Witness for C9: min 0 and max 50 on two rows are both flagged; a table
with tied ranks and a sane range yields no rank errors. -/
theorem rank_range_rule_characterization_witness :
    VError.rankMin ([50].foldl min 0) ∈ rankRangeCheck ((0 :: [50]).map some) ∧
    VError.rankMax ([50].foldl max 0) (0 :: [50]).length
        ∈ rankRangeCheck ((0 :: [50]).map some) ∧
    rankRangeCheck ((3 :: [3, 1]).map some) = [] :=
  ⟨(rank_range_rule_characterization 0 [50]).1 (by decide),
   (rank_range_rule_characterization 0 [50]).2.1 (by decide),
   (rank_range_rule_characterization 3 [3, 1]).2.2 (by decide) (by decide)⟩

/-! ## Builder pipeline theorem -/

/-- C1 (code-bug evaluation): on the bad end-to-end snapshot of the spec the
canonical transform yields a table the five-rule validator flags with
exactly one negative-market-cap violation, yet none of the three builders
includes a validate stage or a read-back re-validate stage in its build
pipeline, so build() writes the artifact without ever seeing the
violation. -/
theorem build_pipeline_missing_validation :
    Except.map validateArrowTable (transformToRows "2025-01-01" e2eBadCoins)
        = .ok [.negativeMarketCap 1] ∧
    BuildStep.validateTable ∉ csvBuildPipeline ∧
    BuildStep.validateTable ∉ duckdbBuildPipeline ∧
    BuildStep.validateTable ∉ parquetBuildPipeline ∧
    BuildStep.readBackValidate ∉ csvBuildPipeline ∧
    BuildStep.readBackValidate ∉ duckdbBuildPipeline ∧
    BuildStep.readBackValidate ∉ parquetBuildPipeline := by decide

end CryptoRank
